import Mathlib

/-!
Verification development for the scalesmonster guitar pedagogy widgets.

The repository ships three browser pages built around one computational
core: MIDI pitch arithmetic and naming, scale definitions, fretboard
position generation (minor-pentatonic boxes, three-notes-per-string
windows, exact two-octave runs with a greedy position walk), a staff
hit-test, and a timed note quiz with a high-score ledger.

The definitions below are shallow embeddings of the JavaScript sources:

* `Tab.*`        embeds `tab.js` (scale tables, run/box/3NPS generators);
* `Staff.*`      embeds the staff hit-test of the note-finder page
                 (`hitTestStaffToMidi`);
* `NoteFinder.*` embeds `note-finder.js` (`noteNameFromMidi`);
* `Quiz.*`       embeds `note-quiz.js` (answer normalization, question
                 pool, scoring, high-score ledger).

Modelling conventions:

* JavaScript numbers are modelled as `Int`/`Nat` (all quantities involved
  are integral); the remainder operator `%` on possibly-negative values is
  modelled with `Int.tmod`, which has JavaScript's truncating semantics.
* The greedy-walk cost `1.2*|dFret| + 2.2*|dString| + 2*[dir]` is scaled
  by 10 to `12*|dFret| + 22*|dString| + 20*[dir]`, which preserves every
  strict comparison between cost values.
* Functions that `throw` are modelled with `Except String`; object lookup
  that can yield `undefined` is modelled with `Option`.
* JavaScript's stable `Array.prototype.sort` with comparator `cmp` is
  modelled by `List.insertionSort r` where `r a b ↔ cmp a b ≤ 0`
  (Mathlib's insertion sort is stable in the same sense).
* String operations are implemented over the underlying character lists
  (trim, whitespace stripping, upper-casing, lexicographic comparison),
  matching the ASCII behaviour of the source.
* Pixel coordinates of the staff hit-test are modelled as `ℚ` and
  `Math.round` as `fun q => ⌊q + 1/2⌋`.
-/

/-- Adjacent-pairs check: `pairwiseAdjB lt [a, b, c, ...]` holds when
`lt a b`, `lt b c`, ... all hold. Used to state that generated position
lists are ordered. -/
def pairwiseAdjB {α : Type} (lt : α → α → Bool) : List α → Bool
  | [] => true
  | [_] => true
  | a :: b :: rest => lt a b && pairwiseAdjB lt (b :: rest)

instance instDecEqExcept {ε α : Type} [DecidableEq ε] [DecidableEq α] :
    DecidableEq (Except ε α) := fun x y =>
  match x, y with
  | .ok a, .ok b =>
    if h : a = b then .isTrue (by rw [h]) else .isFalse (by intro hc; cases hc; exact h rfl)
  | .ok _, .error _ => .isFalse (by intro hc; cases hc)
  | .error _, .ok _ => .isFalse (by intro hc; cases hc)
  | .error e, .error f =>
    if h : e = f then .isTrue (by rw [h]) else .isFalse (by intro hc; cases hc; exact h rfl)

namespace Tab

/-- Open-string MIDI pitches, string number 6 (low E) to 1 (high E).
`tab.js`: `STRING_OPEN_MIDI = { 6: 40, 5: 45, 4: 50, 3: 55, 2: 59, 1: 64 }`.
Strings outside 1..6 do not occur; the catch-all returns 0. -/
def STRING_OPEN_MIDI : Nat → Int
  | 6 => 40
  | 5 => 45
  | 4 => 50
  | 3 => 55
  | 2 => 59
  | 1 => 64
  | _ => 0

/-- The 12-entry sharp-name table of `tab.js`. -/
def PC_NAMES_SHARP : List String :=
  ["C", "C#", "D", "D#", "E", "F"] ++ ["F#", "G", "G#", "A", "A#", "B"]

/-- Reverse lookup name → pitch-class index (`PC_TO_INDEX` in `tab.js`). -/
def PC_TO_INDEX (name : String) : Option Nat :=
  PC_NAMES_SHARP.findIdx? (· == name)

/-- Key name → semitone offset from E (`KEY_TO_SEMITONE_FROM_E`). -/
def KEY_TO_SEMITONE_FROM_E : List (String × Int) :=
  [("C", 8), ("C#", 9), ("D", 10), ("D#", 11), ("E", 0), ("F", 1),
   ("F#", 2), ("G", 3), ("G#", 4), ("A", 5), ("A#", 6), ("B", 7)]

/-- The static scale table of `tab.js` (`SCALE_DEFINITIONS`). -/
def SCALE_DEFINITIONS : List (String × List Int) :=
  [("Major", [0, 2, 4, 5, 7, 9, 11]),
   ("Minor", [0, 2, 3, 5, 7, 8, 10]),
   ("Melodic Minor", [0, 2, 3, 5, 7, 9, 11]),
   ("Harmonic Minor", [0, 2, 3, 5, 7, 8, 11]),
   ("Major Pentatonic", [0, 2, 4, 7, 9]),
   ("Minor Pentatonic", [0, 3, 5, 7, 10]),
   ("Blues", [0, 3, 5, 6, 7, 10]),
   ("Rock 'n' roll", [0, 3, 4, 5, 7, 9, 10]),
   ("Ionian", [0, 2, 4, 5, 7, 9, 11]),
   ("Dorian", [0, 2, 3, 5, 7, 9, 10]),
   ("Phrygian", [0, 1, 3, 5, 7, 8, 10]),
   ("Lydian", [0, 2, 4, 6, 7, 9, 11]),
   ("Mixolydian", [0, 2, 4, 5, 7, 9, 10]),
   ("Aeolian", [0, 2, 3, 5, 7, 8, 10]),
   ("Locrian", [0, 1, 3, 5, 6, 8, 10]),
   ("Dorian Bebop", [0, 2, 3, 5, 7, 9, 10, 11]),
   ("Mixolydian Bebop", [0, 2, 4, 5, 7, 9, 10, 11]),
   ("Whole Tone", [0, 2, 4, 6, 8, 10]),
   ("Half Whole Diminished", [0, 1, 3, 4, 6, 7, 9, 10]),
   ("Whole Half Diminished", [0, 2, 3, 5, 6, 8, 9, 11]),
   ("Spanish Major", [0, 1, 4, 5, 7, 8, 10]),
   ("Persian", [0, 1, 4, 5, 6, 8, 11]),
   ("Gypsy Major", [0, 2, 3, 6, 7, 8, 10])]

/-- Minor-pentatonic box templates (`MIN_PENT_BOX_TEMPLATES`): id plus a
per-string list of relative fret offsets (two notes per string). -/
structure BoxTemplate where
  id : Nat
  frets : List (Nat × List Int)
deriving DecidableEq

def MIN_PENT_BOX_TEMPLATES : List BoxTemplate :=
  [⟨1, [(6, [0, 3]), (5, [0, 2]), (4, [0, 2]), (3, [0, 2]), (2, [0, 3]), (1, [0, 3])]⟩,
   ⟨2, [(6, [3, 5]), (5, [2, 5]), (4, [2, 5]), (3, [2, 5]), (2, [3, 5]), (1, [3, 5])]⟩,
   ⟨3, [(6, [5, 7]), (5, [5, 7]), (4, [5, 7]), (3, [5, 7]), (2, [5, 8]), (1, [5, 8])]⟩,
   ⟨4, [(6, [7, 10]), (5, [7, 10]), (4, [7, 9]), (3, [7, 9]), (2, [8, 10]), (1, [8, 10])]⟩,
   ⟨5, [(6, [10, 12]), (5, [9, 12]), (4, [9, 12]), (3, [9, 12]), (2, [10, 12]), (1, [10, 12])]⟩]

/-- Access `template.frets[s]` (strings 6..1 are always present). -/
def templateFrets (tpl : BoxTemplate) (s : Nat) : List Int :=
  (tpl.frets.lookup s).getD []

/-- `clampFret(f) = Math.max(0, Math.min(24, f))`. -/
def clampFret (f : Int) : Int := max 0 (min 24 f)

/-- The pitch-class index `((midi % 12) + 12) % 12` with JavaScript's
truncating `%` (`Int.tmod`); the result is in `[0, 12)`. -/
def jsPcIdx (midi : Int) : Nat := (((midi.tmod 12) + 12).tmod 12).toNat

/-- `midiToPcName`: sharp name of a MIDI pitch. -/
def midiToPcName (midi : Int) : String := PC_NAMES_SHARP.getD (jsPcIdx midi) ""

/-- `isRootForKey(string, fret, keyName)`. -/
def isRootForKey (string : Nat) (fret : Int) (keyName : String) : Bool :=
  midiToPcName (STRING_OPEN_MIDI string + fret) == keyName

/-- `pickLowERootFret`: root fret on the low E string; throws on an
unknown key. -/
def pickLowERootFret (keyName : String) : Except String Int :=
  match KEY_TO_SEMITONE_FROM_E.lookup keyName with
  | none => .error ("Unknown key: " ++ keyName)
  | some base => .ok (base.tmod 12)

/-- A fretboard position (string number, fret). -/
structure Pos where
  string : Nat
  fret : Int
deriving DecidableEq

/-- A rendered note datum `{ string, fret, isRoot }`. -/
structure NoteData where
  string : Nat
  fret : Int
  isRoot : Bool
deriving DecidableEq

/-- Result record of `buildScaleMidiSequence`: `{ up, full, rootMidi }`. -/
structure ScaleSeq where
  up : List Int
  full : List Int
  rootMidi : Int
deriving DecidableEq

/-- `buildScaleMidiSequence(rootPcName, intervals)`: the exact two-octave
MIDI run (ascending, then appended descending copy without the peak). -/
def buildScaleMidiSequence (rootPcName : String) (intervals : List Int) :
    Except String ScaleSeq :=
  match PC_TO_INDEX rootPcName with
  | none => .error ("Unknown key: " ++ rootPcName)
  | some _ =>
    match pickLowERootFret rootPcName with
    | .error e => .error e
    | .ok rootFret6 =>
      let rootMidi := STRING_OPEN_MIDI 6 + rootFret6
      let up :=
        ((List.range 2).flatMap fun oct =>
          intervals.map fun iv => rootMidi + iv + 12 * (oct : Int)) ++ [rootMidi + 24]
      let uniqUp :=
        up.foldl (fun acc m => if acc.getLast? = some m then acc else acc ++ [m]) []
      let down := uniqUp.dropLast.reverse
      .ok ⟨uniqUp, uniqUp ++ down, rootMidi⟩

/-- `allPositionsForMidi(targetMidi)`: every (string, fret) sounding the
exact pitch, fret within `[0, 24]`, strings checked 6 down to 1. -/
def allPositionsForMidi (targetMidi : Int) : List Pos :=
  [6, 5, 4, 3, 2, 1].filterMap fun s =>
    let fret := targetMidi - STRING_OPEN_MIDI s
    if 0 ≤ fret ∧ fret ≤ 24 then some ⟨s, fret⟩ else none

/-- Ten times the greedy-walk cost of `chooseBestPosition`
(`fretJump * 1.2 + stringJump * 2.2 + directionPenalty`); scaling by 10
keeps the cost integral and preserves all strict comparisons. -/
def cost10 (prev c : Pos) : Int :=
  12 * ((c.fret - prev.fret).natAbs : Int) +
    22 * (((c.string : Int) - (prev.string : Int)).natAbs : Int) +
    (if prev.string < c.string then 20 else 0)

/-- `chooseBestPosition(prev, candidates)`: strict-minimum scan of the
candidate list (first minimum wins), `candidates[0]` as fallback. -/
def chooseBestPosition (prev : Option Pos) (candidates : List Pos) : Option Pos :=
  let best := candidates.foldl
    (fun acc c =>
      let cost : Int := match prev with | none => 0 | some p => cost10 p c
      match acc with
      | none => some (c, cost)
      | some (b, bc) => if cost < bc then some (c, cost) else some (b, bc))
    none
  match best with
  | some (b, _) => some b
  | none => candidates.head?

/-- `mapMidiToTabNotes(keyName, midiSeq)`: the greedy nearest-position
walk; pitches with no playable position are skipped. -/
def mapMidiToTabNotes (keyName : String) (midiSeq : List Int) : List NoteData :=
  (midiSeq.foldl
    (fun (st : Option Pos × List NoteData) midi =>
      match chooseBestPosition st.1 (allPositionsForMidi midi) with
      | none => st
      | some chosen =>
        (some chosen, st.2 ++ [⟨chosen.string, chosen.fret, midiToPcName midi == keyName⟩]))
    (none, [])).2

/-- `generateTabForScale(keyName, scaleName)`: two-octave run mapped to
tab positions; an unknown scale name yields the empty list. -/
def generateTabForScale (keyName scaleName : String) : Except String (List NoteData) :=
  match SCALE_DEFINITIONS.lookup scaleName with
  | none => .ok []
  | some intervals =>
    match buildScaleMidiSequence keyName intervals with
    | .error e => .error e
    | .ok seq => .ok (mapMidiToTabNotes keyName seq.full)

/-- `buildPcSetForScale`: pitch-class set of (key, scale); the JavaScript
`Set` is modelled as a list used only through membership. -/
def buildPcSetForScale (keyName : String) (intervals : List Int) :
    Except String (List Nat) :=
  match PC_TO_INDEX keyName with
  | none => .error ("Unknown key: " ++ keyName)
  | some rootPc => .ok (intervals.map fun iv => (rootPc + iv.toNat) % 12)

/-- `fretsForStringPcSet(string, pcSet)`: frets 0..24 of a string whose
pitch class belongs to the set, in ascending order. -/
def fretsForStringPcSet (string : Nat) (pcSet : List Nat) : List Nat :=
  (List.range 25).filter fun f =>
    pcSet.contains (((STRING_OPEN_MIDI string).toNat + f) % 12)

/-- A 3NPS position set `{ minFret, maxFret, notesData }`. -/
structure Position3 where
  minFret : Int
  maxFret : Int
  notesData : List NoteData
deriving DecidableEq

/-- One 7-fret window of the 3NPS scan: for each string (6 down to 1) the
lowest three qualifying frets; `none` when some string has fewer than 3. -/
def windowChosen (stringFrets : Nat → List Nat) (keyName : String) (start : Nat) :
    Option (List NoteData) :=
  let per := [6, 5, 4, 3, 2, 1].map fun s =>
    (s, (stringFrets s).filter fun f => start ≤ f && f ≤ start + 6)
  if per.all (fun p => 3 ≤ p.2.length) then
    some (per.flatMap fun p =>
      (p.2.take 3).map fun f => ⟨p.1, (f : Int), isRootForKey p.1 (f : Int) keyName⟩)
  else none

/-- Ordering used to sort 3NPS position sets: comparator
`(a.minFret - b.minFret) || (a.maxFret - b.maxFret)` is `≤ 0`. -/
def posLe (a b : Position3) : Prop :=
  a.minFret < b.minFret ∨ (a.minFret = b.minFret ∧ a.maxFret ≤ b.maxFret)

instance : DecidableRel posLe := fun a b =>
  inferInstanceAs (Decidable (a.minFret < b.minFret ∨ (a.minFret = b.minFret ∧ a.maxFret ≤ b.maxFret)))

/-- `generate3NPSPositionsForScale(keyName, scaleName)`: slide a 7-fret
window in 2-fret steps from near the root fret, keep windows where every
string has ≥ 3 qualifying frets, deduplicate by (minFret, maxFret), sort
ascending. An unknown scale name yields the empty list. -/
def generate3NPSPositionsForScale (keyName scaleName : String) :
    Except String (List Position3) :=
  match SCALE_DEFINITIONS.lookup scaleName with
  | none => .ok []
  | some intervals =>
    match buildPcSetForScale keyName intervals with
    | .error e => .error e
    | .ok pcSet =>
      match pickLowERootFret keyName with
      | .error e => .error e
      | .ok base =>
        let stringFrets : Nat → List Nat := fun s => fretsForStringPcSet s pcSet
        let start0 : Nat := (max 0 (base - 2)).toNat
        let starts := (List.range 13).filterMap fun k =>
          let st := start0 + 2 * k
          if st ≤ 24 then some st else none
        let positions := starts.foldl
          (fun (acc : List Position3) st =>
            match windowChosen stringFrets keyName st with
            | none => acc
            | some notesAsc =>
              let frets := notesAsc.map (·.fret)
              let minF := frets.foldl min 1000000
              let maxF := frets.foldl max (-1000000)
              if acc.any (fun p => p.minFret == minF && p.maxFret == maxF) then acc
              else acc ++ [⟨minF, maxF, notesAsc ++ notesAsc.dropLast.reverse⟩])
          []
        .ok (positions.insertionSort posLe)

/-- `boxFits` of `pickBaseFretForBox`: every template fret stays in
`[0, 24]` at the given base fret. -/
def boxFits (tpl : BoxTemplate) (base : Int) : Bool :=
  [6, 5, 4, 3, 2, 1].all fun s =>
    (templateFrets tpl s).all fun off => 0 ≤ base + off && base + off ≤ 24

/-- `pickBaseFretForBox(keyName, template)`: first of
`[rootFret, rootFret + 12, rootFret - 12]` that fits, clamped root fret
as fallback. -/
def pickBaseFretForBox (keyName : String) (tpl : BoxTemplate) : Except String Int :=
  match pickLowERootFret keyName with
  | .error e => .error e
  | .ok rootFret =>
    .ok ((([rootFret, rootFret + 12, rootFret - 12]).find? fun c => boxFits tpl c).getD
      (clampFret rootFret))

/-- `generateBoxNotes(template, baseFretS6, keyName)`: ascending pass over
strings 6..1 with each fret clamped into range, completed up-then-down. -/
def generateBoxNotes (tpl : BoxTemplate) (baseFretS6 : Int) (keyName : String) :
    List NoteData :=
  let asc := [6, 5, 4, 3, 2, 1].flatMap fun s =>
    (templateFrets tpl s).map fun off =>
      let fret := clampFret (baseFretS6 + off)
      (⟨s, fret, isRootForKey s fret keyName⟩ : NoteData)
  asc ++ asc.dropLast.reverse

/-- A rendered pentatonic box `{ id, minFret, maxFret, notesData }`. -/
structure Box where
  id : Nat
  minFret : Int
  maxFret : Int
  notesData : List NoteData
deriving DecidableEq

/-- Ordering used to sort boxes: comparator
`(a.minFret - b.minFret) || (a.maxFret - b.maxFret) || (a.id - b.id)` is `≤ 0`. -/
def boxLe (a b : Box) : Prop :=
  a.minFret < b.minFret ∨
    (a.minFret = b.minFret ∧
      (a.maxFret < b.maxFret ∨ (a.maxFret = b.maxFret ∧ a.id ≤ b.id)))

instance : DecidableRel boxLe := fun a b =>
  inferInstanceAs (Decidable (a.minFret < b.minFret ∨
    (a.minFret = b.minFret ∧
      (a.maxFret < b.maxFret ∨ (a.maxFret = b.maxFret ∧ a.id ≤ b.id)))))

/-- `generateAllMinorPentBoxes(keyName)`: instantiate all five templates
and sort them by (minFret, maxFret, id). -/
def generateAllMinorPentBoxes (keyName : String) : Except String (List Box) :=
  let step : Except String (List Box) → BoxTemplate → Except String (List Box) :=
    fun acc tpl =>
      match acc, pickBaseFretForBox keyName tpl with
      | .error e, _ => .error e
      | _, .error e => .error e
      | .ok bs, .ok base =>
        let notesData := generateBoxNotes tpl base keyName
        let frets := notesData.map (·.fret)
        .ok (bs ++ [⟨tpl.id, frets.foldl min 1000000, frets.foldl max (-1000000), notesData⟩])
  match MIN_PENT_BOX_TEMPLATES.foldl step (.ok []) with
  | .error e => .error e
  | .ok boxes => .ok (boxes.insertionSort boxLe)

end Tab

namespace Staff

/-- `Math.round` on an exact rational: round half toward positive. -/
def jsRound (q : ℚ) : ℤ := ⌊q + 1 / 2⌋

/-- `hitTestStaffToMidi(x, y)` from the note-finder staff page: treble
band y ∈ [20, 120] centred on pitch 71 at y = 70, bass band y ∈ [140, 240]
centred on pitch 50 at y = 190, 10 pixels per step, result clamped into
[40, 88]; outside both bands the result is `none`. `x` is unused, as in
the source. -/
def hitTestStaffToMidi (x y : ℚ) : Option ℤ :=
  let lineSpacing : ℚ := 10
  let trebleCenterY : ℚ := 70
  let trebleMidiCenter : ℚ := 71
  let bassCenterY : ℚ := 190
  let bassMidiCenter : ℚ := 50
  let midi : Option ℤ :=
    if 20 ≤ y ∧ y ≤ 120 then
      some (jsRound (trebleMidiCenter - (y - trebleCenterY) / lineSpacing))
    else if 140 ≤ y ∧ y ≤ 240 then
      some (jsRound (bassMidiCenter - (y - bassCenterY) / lineSpacing))
    else none
  midi.map fun m => max 40 (min 88 m)

end Staff

namespace NoteFinder

/-- The 12-entry sharp-name table of `note-finder.js`. -/
def PC_NAMES_SHARP : List String :=
  ["C", "C#", "D", "D#", "E", "F"] ++ ["F#", "G", "G#", "A", "A#", "B"]

/-- The pitch-class index `((midi % 12) + 12) % 12` with JavaScript's
truncating `%`. -/
def jsPcIdx (midi : Int) : Nat := (((midi.tmod 12) + 12).tmod 12).toNat

/-- `noteNameFromMidi(midi)`: `{ name, octave }` with
`octave = Math.floor(midi / 12) - 1`. -/
def noteNameFromMidi (midi : Int) : String × Int :=
  (PC_NAMES_SHARP.getD (jsPcIdx midi) "", midi.fdiv 12 - 1)

end NoteFinder

namespace Quiz

/-- Open-string MIDI pitches indexed by string index 0 (high E) .. 5 (low E). -/
def STRING_OPEN_MIDI : List Int := [64, 59, 55, 50, 45, 40]

def PC_NAMES_SHARP : List String :=
  ["C", "C#", "D", "D#", "E", "F"] ++ ["F#", "G", "G#", "A", "A#", "B"]

def PC_NAMES_FLAT : List String :=
  ["C", "Db", "D", "Eb", "E", "F", "Gb", "G", "Ab", "A", "Bb", "B"]

def TOTAL_QUESTIONS : Nat := 10

/-- The pitch-class index `((midi % 12) + 12) % 12` with JavaScript's
truncating `%`. -/
def jsPcIdx (midi : Int) : Nat := (((midi.tmod 12) + 12).tmod 12).toNat

/-- `n.includes("#")` over the character list of `n`. -/
def hasSharpMark (n : String) : Bool := n.data.contains '#'

/-- `pcNameFromMidi(midi, flats, sharps)`: acceptable display names; with
neither flag set, accidental sharp names are filtered out. -/
def pcNameFromMidi (midi : Int) (flats sharps : Bool) : List String :=
  let pc := jsPcIdx midi
  if flats && sharps then [PC_NAMES_SHARP.getD pc "", PC_NAMES_FLAT.getD pc ""]
  else if flats then [PC_NAMES_FLAT.getD pc ""]
  else if sharps then [PC_NAMES_SHARP.getD pc ""]
  else [PC_NAMES_SHARP.getD pc ""].filter fun n => !(hasSharpMark n)

/-- JavaScript `\s` approximated by `Char.isWhitespace` (agrees on ASCII). -/
def jsIsWs (c : Char) : Bool := c.isWhitespace

/-- `str.trim()` over the character list. -/
def jsTrim (s : String) : String :=
  ⟨((s.data.dropWhile jsIsWs).reverse.dropWhile jsIsWs).reverse⟩

/-- `str.replace(/\s+/g, "")`. -/
def stripWs (s : String) : String := ⟨s.data.filter fun c => !jsIsWs c⟩

/-- `str.toUpperCase()` (ASCII). -/
def jsToUpper (s : String) : String := ⟨s.data.map Char.toUpper⟩

/-- `normalizeInput(str)`: trim, strip all whitespace, upper-case. The two
`replace` calls mapping `b` to `b` and `#` to `#` are identities and are
omitted. -/
def normalizeInput (s : String) : String := jsToUpper (stripWs (jsTrim s))

/-- A quiz question `{ stringIdx, fret, midi, answerNames }`. -/
structure Question where
  stringIdx : Nat
  fret : Nat
  midi : Int
  answerNames : List String
deriving DecidableEq

/-- The question pool built by `buildQuestions` before the random shuffle
and `slice(0, TOTAL_QUESTIONS)`: every (string, fret) combination in the
chosen ranges with its acceptable names. The shuffle is a random
permutation and is not modelled; properties of pool membership transfer
to any shuffled prefix that contains the entry. -/
def buildQuestionPool (stringRange : String) (fretMin fretMax : Nat)
    (flats sharps : Bool) : List Question :=
  let stringIdxs : List Nat :=
    if stringRange = "all" then [0, 1, 2, 3, 4, 5]
    else if stringRange = "treble" then [0, 1, 2]
    else [3, 4, 5]
  stringIdxs.flatMap fun s =>
    (List.range (fretMax + 1 - fretMin)).map fun k =>
      let f := fretMin + k
      let midi := STRING_OPEN_MIDI.getD s 0 + (f : Int)
      ⟨s, f, midi, pcNameFromMidi midi flats sharps⟩

/-- The answer-checking core of `submitAnswer`: normalized membership in
the accepted set, plus the enharmonic fallback when both flags are on.
`answers[0]` of an empty list (`undefined`) is modelled as `""`, which
compares unequal to every name, as in the source. -/
def answerIsCorrect (answerNames : List String) (flats sharps : Bool)
    (midi : Int) (input : String) : Bool :=
  let answers := answerNames.map normalizeInput
  let user := normalizeInput input
  let correct := answers.contains user
  if !correct && flats && sharps then
    let pc := (midi.tmod 12).toNat
    let sharpName := PC_NAMES_SHARP.getD pc ""
    let flatName := PC_NAMES_FLAT.getD pc ""
    let enharmonic := if answers.getD 0 "" = sharpName then flatName else sharpName
    user == normalizeInput enharmonic
  else correct

/-- A high-score ledger entry `{ name, score, date }`. -/
structure ScoreEntry where
  name : String
  score : Nat
  date : String
deriving DecidableEq

/-- Lexicographic `≤` on character lists; `localeCompare` on the ASCII
date strings used by the ledger coincides with it. -/
def charListLe : List Char → List Char → Bool
  | [], _ => true
  | _ :: _, [] => false
  | a :: as, b :: bs => if a < b then true else if b < a then false else charListLe as bs

/-- `a.localeCompare(b) ≤ 0` for the ledger's ISO date strings. -/
def dateLe (a b : String) : Bool := charListLe a.data b.data

/-- The ledger comparator `(b.score - a.score) || a.date.localeCompare(b.date)`
is `≤ 0`: score descending, date ascending. -/
def scoreEntryLeB (a b : ScoreEntry) : Bool :=
  (b.score < a.score) || (b.score == a.score && dateLe a.date b.date)

def scoreEntryLe (a b : ScoreEntry) : Prop := scoreEntryLeB a b = true

instance : DecidableRel scoreEntryLe := fun a b =>
  inferInstanceAs (Decidable (scoreEntryLeB a b = true))

/-- The initials processing of `promptHighScore`: a cancelled or empty
prompt falls back to `"---"`, then `trim().toUpperCase().slice(0, 3)`. -/
def promptEntryName (initials : Option String) : String :=
  let raw := match initials with
    | none => "---"
    | some s => if s.data.isEmpty then "---" else s
  ⟨((jsTrim raw).data.map Char.toUpper).take 3⟩

/-- `promptHighScore` as a pure function of the loaded ledger, the final
score, the prompted initials (`none` models a cancelled prompt) and
today's date string: when the score is 0 nothing is appended and the
ledger is returned unchanged; otherwise the new entry is appended, the
ledger re-sorted (score descending, date ascending, stable) and truncated
to the top 10. -/
def promptHighScore (highScores : List ScoreEntry) (score : Nat)
    (initials : Option String) (today : String) : List ScoreEntry :=
  if score = 0 then highScores
  else
    let pushed := highScores ++ [⟨promptEntryName initials, score, today⟩]
    (pushed.insertionSort scoreEntryLe).take 10

end Quiz

/-! ## Helper lemmas -/

/-- Lower bound of JavaScript's truncating remainder by 12. -/
theorem tmod12_lower (m : Int) : -12 < m.tmod 12 := by
  rcases m with n | n
  · exact lt_of_lt_of_le (by norm_num) (Int.tmod_nonneg _ (Int.ofNat_nonneg n))
  · have h : (Int.negSucc n).tmod 12 = -(((n + 1) % 12 : Nat) : Int) := rfl
    have h2 : (n + 1) % 12 < 12 := Nat.mod_lt _ (by norm_num)
    omega

/-- The JavaScript idiom `((m % 12) + 12) % 12` (truncating `%`) computes
the mathematical (euclidean) remainder. -/
theorem jsmod_eq_emod (m : Int) : ((m.tmod 12) + 12).tmod 12 = m % 12 := by
  have h1 : -12 < m.tmod 12 := tmod12_lower m
  have h3 : 0 ≤ m.tmod 12 + 12 := by omega
  rw [Int.tmod_eq_emod h3 (by norm_num)]
  have h4 : m.tmod 12 = m - 12 * (m.tdiv 12) := Int.tmod_def m 12
  rw [h4]
  omega

theorem NoteFinder.jsPcIdx_eq (m : Int) : NoteFinder.jsPcIdx m = (m % 12).toNat := by
  unfold NoteFinder.jsPcIdx
  rw [jsmod_eq_emod]

/-- `charListLe` is total. -/
theorem Quiz.charListLe_total :
    ∀ as bs : List Char, Quiz.charListLe as bs = true ∨ Quiz.charListLe bs as = true
  | [], _ => .inl rfl
  | _ :: _, [] => .inr rfl
  | a :: as, b :: bs => by
    rcases lt_trichotomy a b with h | h | h
    · left; simp [Quiz.charListLe, h]
    · subst h
      rcases Quiz.charListLe_total as bs with ih | ih
      · left; simpa [Quiz.charListLe] using ih
      · right; simpa [Quiz.charListLe] using ih
    · right; simp [Quiz.charListLe, h]

/-- `charListLe` is transitive. -/
theorem Quiz.charListLe_trans :
    ∀ as bs cs : List Char, Quiz.charListLe as bs = true →
      Quiz.charListLe bs cs = true → Quiz.charListLe as cs = true
  | [], _, _, _, _ => rfl
  | _ :: _, [], _, h1, _ => by simp [Quiz.charListLe] at h1
  | _ :: _, _ :: _, [], _, h2 => by simp [Quiz.charListLe] at h2
  | a :: as, b :: bs, c :: cs, h1, h2 => by
    rcases lt_trichotomy a b with hab | hab | hab
    · rcases lt_trichotomy b c with hbc | hbc | hbc
      · simp [Quiz.charListLe, lt_trans hab hbc]
      · subst hbc; simp [Quiz.charListLe, hab]
      · exfalso
        simp only [Quiz.charListLe, if_neg (lt_asymm hbc), if_pos hbc] at h2
        exact Bool.false_ne_true h2
    · subst hab
      rcases lt_trichotomy a c with hac | hac | hac
      · simp [Quiz.charListLe, hac]
      · subst hac
        have h1' : Quiz.charListLe as bs = true := by simpa [Quiz.charListLe] using h1
        have h2' : Quiz.charListLe bs cs = true := by simpa [Quiz.charListLe] using h2
        simpa [Quiz.charListLe] using Quiz.charListLe_trans as bs cs h1' h2'
      · exfalso
        simp only [Quiz.charListLe, if_neg (lt_asymm hac), if_pos hac] at h2
        exact Bool.false_ne_true h2
    · exfalso
      simp only [Quiz.charListLe, if_neg (lt_asymm hab), if_pos hab] at h1
      exact Bool.false_ne_true h1

/-- Unfolding of the ledger ordering into its components. -/
theorem Quiz.scoreEntryLe_iff (a b : Quiz.ScoreEntry) :
    Quiz.scoreEntryLe a b ↔
      b.score < a.score ∨ (b.score = a.score ∧ Quiz.dateLe a.date b.date = true) := by
  unfold Quiz.scoreEntryLe Quiz.scoreEntryLeB
  simp [Bool.or_eq_true, Bool.and_eq_true, beq_iff_eq, decide_eq_true_iff]

/-- The ledger ordering is total. -/
theorem Quiz.scoreEntryLe_total (a b : Quiz.ScoreEntry) :
    Quiz.scoreEntryLe a b ∨ Quiz.scoreEntryLe b a := by
  rw [Quiz.scoreEntryLe_iff, Quiz.scoreEntryLe_iff]
  rcases lt_trichotomy a.score b.score with h | h | h
  · right; left; exact h
  · rcases Quiz.charListLe_total a.date.data b.date.data with hd | hd
    · left; right; exact ⟨h.symm, hd⟩
    · right; right; exact ⟨h, hd⟩
  · left; left; exact h

/-- The ledger ordering is transitive. -/
theorem Quiz.scoreEntryLe_trans (a b c : Quiz.ScoreEntry) :
    Quiz.scoreEntryLe a b → Quiz.scoreEntryLe b c → Quiz.scoreEntryLe a c := by
  rw [Quiz.scoreEntryLe_iff, Quiz.scoreEntryLe_iff, Quiz.scoreEntryLe_iff]
  rintro (h1 | ⟨h1, hd1⟩) (h2 | ⟨h2, hd2⟩)
  · left; omega
  · left; omega
  · left; omega
  · right
    exact ⟨by omega, Quiz.charListLe_trans _ _ _ hd1 hd2⟩

/-! ## Claim theorems -/

/-- C1 counterexample: with the unknown scale name "NotAScale" (for key
"C"), both generators return `Except.ok []` — an empty list, not an
error — refuting the claim that they signal a "scale not found" error to
the caller instead of returning an empty list. -/
theorem unknownScale_silent_empty_counterexample :
    Tab.generateTabForScale "C" "NotAScale" = .ok [] ∧
    Tab.generate3NPSPositionsForScale "C" "NotAScale" = .ok [] ∧
    Tab.SCALE_DEFINITIONS.lookup "NotAScale" = none := by decide

/-- C1 (amended): for every key name and every scale name that is not in
the scale definition table, `generateTabForScale` and
`generate3NPSPositionsForScale` return the empty list without raising any
error (an unknown key, by contrast, raises an explicit "Unknown key"
error; the empty 3NPS result is turned into an error only by the caller
`renderApp`). -/
theorem unknownScale_returns_ok_empty (keyName scaleName : String)
    (h : Tab.SCALE_DEFINITIONS.lookup scaleName = none) :
    Tab.generateTabForScale keyName scaleName = .ok [] ∧
    Tab.generate3NPSPositionsForScale keyName scaleName = .ok [] := by
  constructor
  · unfold Tab.generateTabForScale
    rw [h]
  · unfold Tab.generate3NPSPositionsForScale
    rw [h]

/-- Witness for the amended C1 at key "C" and scale "NotAScale". -/
theorem unknownScale_returns_ok_empty_witness :
    Tab.generateTabForScale "C" "NotAScale" = .ok [] ∧
    Tab.generate3NPSPositionsForScale "C" "NotAScale" = .ok [] :=
  unknownScale_returns_ok_empty "C" "NotAScale" (by decide)

set_option maxRecDepth 10000

/-- C2: `generate3NPSPositionsForScale` for key "C" and scale "Major"
returns at least one position set, and in every returned position set
each of the 6 strings contributes exactly 3 frets in the ascending half
(the first 18 notes), all of whose pitch classes lie in the C-major set
{C, D, E, F, G, A, B}. -/
theorem cMajor_3nps_positions_valid :
    (Tab.generate3NPSPositionsForScale "C" "Major").toOption.any (fun ps =>
      decide (0 < ps.length) &&
      ps.all (fun p =>
        ([1, 2, 3, 4, 5, 6].all fun s =>
          ((p.notesData.take 18).filter (fun n => n.string == s)).length == 3) &&
        (p.notesData.take 18).all (fun n =>
          ["C", "D", "E", "F", "G", "A", "B"].contains
            (Tab.midiToPcName (Tab.STRING_OPEN_MIDI n.string + n.fret))))) = true := by
  decide

/-- C3: the exact two-octave run for key "E" and scale "Major Pentatonic"
(`buildScaleMidiSequence` composed with the greedy mapping of
`generateTabForScale`) starts and ends on MIDI pitch 40 (open low E), and
its ascending half (the first `up.length` notes) has strictly increasing
— in particular non-decreasing — MIDI pitch values. -/
theorem eMajorPentatonic_run_endpoints_ascending :
    Tab.SCALE_DEFINITIONS.lookup "Major Pentatonic" = some [0, 2, 4, 7, 9] ∧
    (Tab.buildScaleMidiSequence "E" [0, 2, 4, 7, 9]).toOption.any (fun seq =>
      let notes := Tab.mapMidiToTabNotes "E" seq.full
      decide (Tab.generateTabForScale "E" "Major Pentatonic" = .ok notes) &&
      (notes.head?).any (fun n => Tab.STRING_OPEN_MIDI n.string + n.fret == 40) &&
      (notes.getLast?).any (fun n => Tab.STRING_OPEN_MIDI n.string + n.fret == 40) &&
      pairwiseAdjB (fun a b => a < b)
        ((notes.take seq.up.length).map fun n =>
          Tab.STRING_OPEN_MIDI n.string + n.fret)) = true := by
  constructor
  · decide
  · decide

/-- C4: `generateAllMinorPentBoxes` for key "A" places Box 1 (template
id 1) at base fret 5 — the root fret for A in the key-to-semitone table —
and returns the five boxes ordered by strictly ascending min fret. -/
theorem aMinorPent_boxes_base5_ordered :
    Tab.KEY_TO_SEMITONE_FROM_E.lookup "A" = some 5 ∧
    (Tab.MIN_PENT_BOX_TEMPLATES.all fun tpl =>
      tpl.id != 1 || decide (Tab.pickBaseFretForBox "A" tpl = .ok 5)) = true ∧
    (Tab.generateAllMinorPentBoxes "A").toOption.any (fun bs =>
      bs.length == 5 &&
      bs.any (fun b => b.id == 1 && b.minFret == 5) &&
      pairwiseAdjB (fun a b => a.minFret < b.minFret) bs) = true := by
  refine ⟨by decide, by decide, by decide⟩

/-- C8: the quiz inputs " c#" and "C #" both normalize (trim, strip
internal whitespace, case-fold) to the normalized accepted name "C#";
and with both enharmonic flags enabled, submitting "Db" for a question
whose pitch (MIDI 61) has sharp name "C#" is judged correct. -/
theorem quiz_normalization_enharmonic :
    Quiz.normalizeInput " c#" = "C#" ∧
    Quiz.normalizeInput "C #" = "C#" ∧
    Quiz.normalizeInput " c#" = Quiz.normalizeInput "C#" ∧
    Quiz.normalizeInput "C #" = Quiz.normalizeInput "C#" ∧
    Quiz.pcNameFromMidi 61 true true = ["C#", "Db"] ∧
    Quiz.answerIsCorrect (Quiz.pcNameFromMidi 61 true true) true true 61 "Db" = true := by
  decide

/-- C9: for every key in the 12-entry key table and every minor-pentatonic
box template, `pickBaseFretForBox` equals the first of the candidate base
frets `rootFret, rootFret + 12, rootFret - 12` for which every template
fret stays within [0, 24], with the clamped root fret as fallback; it
never fails, and every fret in the generated box note list lies in
[0, 24]. -/
theorem pickBaseFret_firstFit_and_bounds :
    ∀ keyName ∈ Tab.KEY_TO_SEMITONE_FROM_E.map Prod.fst,
    ∀ tpl ∈ Tab.MIN_PENT_BOX_TEMPLATES,
    Tab.pickBaseFretForBox keyName tpl =
      (Tab.pickLowERootFret keyName).map (fun rootFret =>
        (([rootFret, rootFret + 12, rootFret - 12]).find? fun c =>
          Tab.boxFits tpl c).getD (Tab.clampFret rootFret)) ∧
    (Tab.pickBaseFretForBox keyName tpl).toOption.any (fun base =>
      (Tab.generateBoxNotes tpl base keyName).all fun n =>
        0 ≤ n.fret && n.fret ≤ 24) = true := by
  decide

/-- Witness for C9 at key "A" and the first (id 1) box template. -/
theorem pickBaseFret_firstFit_and_bounds_witness :
    Tab.pickBaseFretForBox "A" (Tab.MIN_PENT_BOX_TEMPLATES.getD 0 ⟨0, []⟩) =
      (Tab.pickLowERootFret "A").map (fun rootFret =>
        (([rootFret, rootFret + 12, rootFret - 12]).find? fun c =>
          Tab.boxFits (Tab.MIN_PENT_BOX_TEMPLATES.getD 0 ⟨0, []⟩) c).getD
          (Tab.clampFret rootFret)) ∧
    (Tab.pickBaseFretForBox "A" (Tab.MIN_PENT_BOX_TEMPLATES.getD 0 ⟨0, []⟩)).toOption.any
      (fun base =>
        (Tab.generateBoxNotes (Tab.MIN_PENT_BOX_TEMPLATES.getD 0 ⟨0, []⟩) base "A").all
          fun n => 0 ≤ n.fret && n.fret ≤ 24) = true :=
  pickBaseFret_firstFit_and_bounds "A" (by decide)
    (Tab.MIN_PENT_BOX_TEMPLATES.getD 0 ⟨0, []⟩) (by decide)

/-- C10: with both enharmonic flags off, `pcNameFromMidi` returns the
empty list for every MIDI pitch whose pitch class is an accidental
(1, 3, 6, 8 or 10), the question pool (range "all", frets 0–5) contains a
question whose acceptable-answer set is empty, and for such a question no
user input is ever judged correct. -/
theorem accidental_empty_answer_set (midi : Int)
    (h : Quiz.jsPcIdx midi ∈ [1, 3, 6, 8, 10]) :
    Quiz.pcNameFromMidi midi false false = [] ∧
    (Quiz.buildQuestionPool "all" 0 5 false false).any
      (fun q => q.answerNames.isEmpty) = true ∧
    ∀ input : String, Quiz.answerIsCorrect [] false false midi input = false := by
  refine ⟨?_, by decide, fun input => rfl⟩
  have key : ∀ pcv ∈ [(1 : Nat), 3, 6, 8, 10],
      ([Quiz.PC_NAMES_SHARP.getD pcv ""].filter fun n => !(Quiz.hasSharpMark n)) = [] := by
    decide
  unfold Quiz.pcNameFromMidi
  simpa using key _ h

/-- Witness for C10 at MIDI pitch 61 (pitch class 1, C#/Db). -/
theorem accidental_empty_answer_set_witness :
    Quiz.pcNameFromMidi 61 false false = [] ∧
    (Quiz.buildQuestionPool "all" 0 5 false false).any
      (fun q => q.answerNames.isEmpty) = true ∧
    ∀ input : String, Quiz.answerIsCorrect [] false false 61 input = false :=
  accidental_empty_answer_set 61 (by decide)

/-- Rounding an exact integer plus the implicit half: `jsRound n = n`. -/
theorem Staff.jsRound_intCast (n : ℤ) : Staff.jsRound (n : ℚ) = n := by
  unfold Staff.jsRound
  rw [Int.floor_eq_iff]
  constructor
  · linarith
  · linarith

/-- C5: for every x coordinate, the staff hit-test returns MIDI pitch 71
at y = 70 (treble center line), pitch 50 at y = 190 (bass center line),
and `none` at y = 130 (the gap between the staves); and every non-`none`
result is clamped into [40, 88]. -/
theorem staffHitTest_centers_gap_clamp (x y : ℚ) :
    Staff.hitTestStaffToMidi x 70 = some 71 ∧
    Staff.hitTestStaffToMidi x 190 = some 50 ∧
    Staff.hitTestStaffToMidi x 130 = none ∧
    (Staff.hitTestStaffToMidi x y).all
      (fun m => decide (40 ≤ m) && decide (m ≤ 88)) = true := by
  refine ⟨?_, ?_, ?_, ?_⟩
  · unfold Staff.hitTestStaffToMidi
    norm_num
    rw [show ((71 : ℚ)) = ((71 : ℤ) : ℚ) by norm_num, Staff.jsRound_intCast]
    decide
  · unfold Staff.hitTestStaffToMidi
    norm_num
    rw [show ((50 : ℚ)) = ((50 : ℤ) : ℚ) by norm_num, Staff.jsRound_intCast]
    decide
  · unfold Staff.hitTestStaffToMidi
    norm_num
  · unfold Staff.hitTestStaffToMidi
    dsimp only
    split_ifs with h1 h2
    · simp only [Option.map_some', Option.all_some, Bool.and_eq_true, decide_eq_true_eq]
      exact ⟨le_max_left _ _, max_le (by norm_num) (min_le_left _ _)⟩
    · simp only [Option.map_some', Option.all_some, Bool.and_eq_true, decide_eq_true_eq]
      exact ⟨le_max_left _ _, max_le (by norm_num) (min_le_left _ _)⟩
    · rfl

/-- C6: when a quiz session completes with score 0, nothing is appended
and the ledger is unchanged; with a strictly positive score an entry with
that score and today's date is appended, and the persisted ledger is the
pushed list re-sorted by score descending then date ascending and
truncated to at most 10 entries. -/
theorem promptHighScore_append_sort_truncate
    (scores : List Quiz.ScoreEntry) (initials : Option String) (today : String)
    (score : Nat) (h : 0 < score) :
    Quiz.promptHighScore scores 0 initials today = scores ∧
    ∃ e : Quiz.ScoreEntry, e.score = score ∧ e.date = today ∧
      Quiz.promptHighScore scores score initials today =
        ((scores ++ [e]).insertionSort Quiz.scoreEntryLe).take 10 ∧
      List.Pairwise Quiz.scoreEntryLe (Quiz.promptHighScore scores score initials today) ∧
      (Quiz.promptHighScore scores score initials today).length ≤ 10 := by
  haveI : IsTotal Quiz.ScoreEntry Quiz.scoreEntryLe := ⟨Quiz.scoreEntryLe_total⟩
  haveI : IsTrans Quiz.ScoreEntry Quiz.scoreEntryLe :=
    ⟨fun a b c => Quiz.scoreEntryLe_trans a b c⟩
  have hne : ¬ score = 0 := by omega
  have hval : Quiz.promptHighScore scores score initials today =
      ((scores ++ [(⟨Quiz.promptEntryName initials, score, today⟩ : Quiz.ScoreEntry)]).insertionSort
        Quiz.scoreEntryLe).take 10 := by
    unfold Quiz.promptHighScore
    rw [if_neg hne]
  refine ⟨by simp [Quiz.promptHighScore], ?_⟩
  refine ⟨(⟨Quiz.promptEntryName initials, score, today⟩ : Quiz.ScoreEntry), rfl, rfl, hval, ?_, ?_⟩
  · rw [hval]
    exact List.Pairwise.sublist (List.take_sublist _ _)
      (List.sorted_insertionSort Quiz.scoreEntryLe _)
  · rw [hval, List.length_take]
    exact min_le_left _ _

/-- Witness for C6: empty ledger, score 1, no initials given. -/
theorem promptHighScore_append_sort_truncate_witness :
    Quiz.promptHighScore [] 0 none "2026-10-11" = [] ∧
    ∃ e : Quiz.ScoreEntry, e.score = 1 ∧ e.date = "2026-10-11" ∧
      Quiz.promptHighScore [] 1 none "2026-10-11" =
        (([] ++ [e]).insertionSort Quiz.scoreEntryLe).take 10 ∧
      List.Pairwise Quiz.scoreEntryLe (Quiz.promptHighScore [] 1 none "2026-10-11") ∧
      (Quiz.promptHighScore [] 1 none "2026-10-11").length ≤ 10 :=
  promptHighScore_append_sort_truncate [] none "2026-10-11" 1 (by decide)

/-- C7: for every integer MIDI pitch the derived name and octave follow
the formulas (pitch class `((m % 12) + 12) % 12` indexed into the sharp
table, octave `floor(m / 12) - 1`), pitch-class extraction is idempotent,
and for pitches whose name carries no sharp mark the round trip
`index(name) + 12 * (octave + 1)` recovers the pitch (it in fact holds
for every name). -/
theorem noteName_formula_idempotent_roundtrip (m : Int) :
    NoteFinder.noteNameFromMidi m =
      (NoteFinder.PC_NAMES_SHARP.getD (NoteFinder.jsPcIdx m) "", m.fdiv 12 - 1) ∧
    NoteFinder.jsPcIdx ((NoteFinder.jsPcIdx m : Int)) = NoteFinder.jsPcIdx m ∧
    ((!((NoteFinder.noteNameFromMidi m).1.data.contains '#')) ||
      decide (((Tab.PC_TO_INDEX (NoteFinder.noteNameFromMidi m).1).getD 0 : Int) +
        12 * ((NoteFinder.noteNameFromMidi m).2 + 1) = m)) = true := by
  have h0 : 0 ≤ m % 12 := Int.emod_nonneg m (by norm_num)
  have h12 : m % 12 < 12 := Int.emod_lt_of_pos m (by norm_num)
  have hpc : NoteFinder.jsPcIdx m = (m % 12).toNat := NoteFinder.jsPcIdx_eq m
  refine ⟨rfl, ?_, ?_⟩
  · rw [hpc, NoteFinder.jsPcIdx_eq, Int.toNat_of_nonneg h0,
      Int.emod_emod_of_dvd m (dvd_refl 12)]
  · have key : ∀ pcv : Nat, pcv < 12 →
        ((Tab.PC_TO_INDEX (NoteFinder.PC_NAMES_SHARP.getD pcv "")).getD 0) = pcv := by decide
    have hlt : (m % 12).toNat < 12 := by omega
    rw [Bool.or_eq_true]
    right
    rw [decide_eq_true_eq]
    have hname : (NoteFinder.noteNameFromMidi m).1 =
        NoteFinder.PC_NAMES_SHARP.getD ((m % 12).toNat) "" := by
      unfold NoteFinder.noteNameFromMidi
      rw [hpc]
    have hoct : (NoteFinder.noteNameFromMidi m).2 = m.fdiv 12 - 1 := rfl
    rw [hname, hoct, key _ hlt, Int.fdiv_eq_ediv _ (by norm_num)]
    omega
